import Mathlib

/-!
Verification development for `tsi_tools.py` (Terrain Shape Index tools).

The source operates on shapefile feature classes through arcpy cursors.  We
embed a feature row as a `PointRec`:

* `x`, `y`    — the `SHAPE@XY` coordinate (rationals stand in for IEEE doubles;
  no claim under consideration depends on rounding),
* `ownerId`   — the `Id` attribute (for cardinal points: the owning plot's FID,
  written by `create_cardinals`),
* `elev`, `zhat`, `tsi` — the `RasElev`, `ZHat`, `TSI` attributes; `none`
  models a value never written.  Following the spec's external-interface
  contract for point storage (§6, "add a new named numeric field ... if
  absent"), `AddField_management` is modelled as ensuring the field exists,
  which the record type gives us for free.

A shapefile's `FID` is its 0-based row index, so a feature class is a
`List PointRec` and `FID` is the list position.  A raster is its spatial
reference together with a sampling function `ℚ → ℚ → Option ℚ`;
`sample x y = none` models any failure of
`float(str(arcpy.GetCellValue_management(...)))` at `(x, y)` (out of
coverage, or the `"NoData"` string failing `float`), i.e. a Python exception.
`Except String` models an exception propagating out of a function; the
string carries the Python exception class.
-/

structure SpatialReference where
  name : String
  wkt : String
deriving DecidableEq

structure RasterLayer where
  sr : SpatialReference
  sample : ℚ → ℚ → Option ℚ

structure PointRec where
  x : ℚ
  y : ℚ
  ownerId : ℕ
  elev : Option ℚ
  zhat : Option ℚ
  tsi : Option ℚ
deriving DecidableEq

/-- The eight offset coordinates inserted by `create_cardinals`, in source
order: north, south, east, west, NE, SE, NW, SW.  `cos45` stands for the
source's `math.cos(math.radians(45))`, so `subOffset = cos45 * plotRadius`
exactly as on line 46 of the source.  Generic over the coordinate ring so the
same definition serves the executable ℚ pipeline and the exact-real geometry
claim. -/
def cardinalOffsets {α : Type} [CommRing α] (cos45 x y plotRadius : α) :
    List (α × α) :=
  let subOffset := cos45 * plotRadius
  [(x, y + plotRadius),
   (x, y - plotRadius),
   (x + plotRadius, y),
   (x - plotRadius, y),
   (x + subOffset, y + subOffset),
   (x + subOffset, y - subOffset),
   (x - subOffset, y + subOffset),
   (x - subOffset, y - subOffset)]

/-- One plot row's contribution in `create_cardinals`: eight inserted rows,
each carrying the plot's FID in the `Id` attribute; the new rows have no
`RasElev`/`ZHat`/`TSI` yet. -/
def cardinalRows (cos45 plotRadius : ℚ) (fid : ℕ) (p : PointRec) :
    List PointRec :=
  (cardinalOffsets cos45 p.x p.y plotRadius).map
    (fun xy => { x := xy.1, y := xy.2, ownerId := fid,
                 elev := none, zhat := none, tsi := none })

/-- The `SearchCursor` loop of `create_cardinals`, carrying the FID of the
current plot row (shapefile FIDs are the 0-based row positions). -/
def create_cardinals_go (cos45 plotRadius : ℚ) :
    ℕ → List PointRec → List PointRec
  | _, [] => []
  | fid, p :: ps =>
      cardinalRows cos45 plotRadius fid p
        ++ create_cardinals_go cos45 plotRadius (fid + 1) ps

/-- `create_cardinals(pointFile, plotRadius, outputPath)`: a fresh feature
class of cardinal/subcardinal points, eight per input plot, tagged with the
plot's FID.  (`CreateFeatureclass_management` with `overwriteOutput = True`
makes the output fresh on every run.) -/
def create_cardinals (cos45 plotRadius : ℚ) (pts : List PointRec) :
    List PointRec :=
  create_cardinals_go cos45 plotRadius 0 pts

/-- `extract_elevation(pointFile, elevationRaster)`: walk the update cursor;
each successfully sampled row gets `RasElev := value`.  The single
`try/except` wraps the whole loop, so the first failing row ends the loop:
that row and every later row are left untouched, and the function returns
normally (the handler prints and falls through). -/
def extract_elevation (sample : ℚ → ℚ → Option ℚ) :
    List PointRec → List PointRec
  | [] => []
  | p :: ps =>
      match sample p.x p.y with
      | some v => { p with elev := some v } :: extract_elevation sample ps
      | none => p :: ps

/-- `raster_extract(pointFile, elevationRaster)`.  The guard compares the two
`spatialReference.name` strings.  On mismatch the raster is projected into the
point file's spatial reference as the workspace file `outraster.tif`
(overwriting any previous one, per `overwriteOutput = True`), elevations are
extracted from it, and it is deleted.  Result: the updated rows, the number
of `ProjectRaster_management` calls performed, and the workspace file list
after the call. -/
def raster_extract (reproject : RasterLayer → SpatialReference → RasterLayer)
    (pointSR : SpatialReference) (rows : List PointRec)
    (elevationRaster : RasterLayer) (workspace : List String) :
    List PointRec × ℕ × List String :=
  if pointSR.name = elevationRaster.sr.name then
    (extract_elevation elevationRaster.sample rows, 0, workspace)
  else
    let outRaster := reproject elevationRaster pointSR
    let ws1 := "outraster.tif" :: workspace.filter (fun n => n ≠ "outraster.tif")
    (extract_elevation outRaster.sample rows, 1,
      ws1.filter (fun n => n ≠ "outraster.tif"))

/-- Sequencing of a Python list comprehension over `Option`-valued reads: the
whole list if every element is present, `none` (an exception) at the first
missing one. -/
def allSome : List (Option ℚ) → Option (List ℚ)
  | [] => some []
  | none :: _ => none
  | some v :: rest => (allSome rest).map (fun es => v :: es)

/-- Body of the `for i in unique_ofids` loop of `calculate_zhat`, lines
145–146 of the source:
`cardElevs = [row[1] - pointElevs[i] for row in SearchCursor(..., "Id = i")]`
followed by `zhat = sum(cardElevs)/len(cardElevs)`.  These two lines are
outside the `try`, so every failure is an uncaught exception:
`ZeroDivisionError` when no cardinal row carries `Id = i`, `IndexError` when
`i` is not a position of `pointElevs`, `TypeError` when a `RasElev` taking
part in the subtraction is unset (`None`). -/
def zhatValue (cards : List PointRec) (pointElevs : List (Option ℚ))
    (i : ℕ) : Except String ℚ :=
  let group := cards.filter (fun q => q.ownerId == i)
  if group = [] then .error "ZeroDivisionError"
  else
    match pointElevs.get? i with
    | none => .error "IndexError"
    | some none => .error "TypeError"
    | some (some pe) =>
        match allSome (group.map (fun q => q.elev)) with
        | none => .error "TypeError"
        | some es =>
            let cardElevs := es.map (fun v => v - pe)
            .ok (cardElevs.sum / (cardElevs.length : ℚ))

/-- `UpdateCursor(pointFile, ['FID', 'Zhat'], "FID = i")` writing `zhat`:
update the `ZHat` attribute of the row at position `i` (shapefile `FID`),
leaving every other row alone. -/
def setZhat : List PointRec → ℕ → ℚ → List PointRec
  | [], _, _ => []
  | p :: ps, 0, z => { p with zhat := some z } :: ps
  | p :: ps, i + 1, z => p :: setZhat ps i z

/-- The `for i in unique_ofids` loop of `calculate_zhat`: per id, compute the
group's z-hat (an uncaught exception there aborts the whole function) and
write it to the plot row with that FID. -/
def calculate_zhat_go (cards : List PointRec) (pointElevs : List (Option ℚ)) :
    List ℕ → List PointRec → Except String (List PointRec)
  | [], pts => .ok pts
  | i :: rest, pts =>
      match zhatValue cards pointElevs i with
      | .error e => .error e
      | .ok z => calculate_zhat_go cards pointElevs rest (setZhat pts i z)

/-- `unique_ofids = list(set(ofids))` where `ofids` are the `Id` attributes of
the cardinal file.  (Set iteration order is unspecified in Python; `dedup`
picks a concrete order, and no observable result below depends on it.) -/
def uniqueOwnerIds (cards : List PointRec) : List ℕ :=
  (cards.map (fun q => q.ownerId)).dedup

/-- `calculate_zhat(pointFile, cardinalFile)`.  `pointElevs` is the snapshot
of the plot file's `RasElev` column taken once before the loop (line 140). -/
def calculate_zhat (pts cards : List PointRec) :
    Except String (List PointRec) :=
  calculate_zhat_go cards (pts.map (fun p => p.elev)) (uniqueOwnerIds cards) pts

/-- `calculate_tsi(pointFile, plotRadius)`: walk the update cursor setting
`TSI = Zhat / plotRadius`.  The single `try/except` wraps the whole loop, so
the first row whose `Zhat` is unset raises `TypeError` (`None / float`),
which is caught: that row and all later rows keep their `TSI` untouched and
the function returns normally. -/
def calculate_tsi (plotRadius : ℚ) : List PointRec → List PointRec
  | [] => []
  | p :: ps =>
      match p.zhat with
      | some z => { p with tsi := some (z / plotRadius) } :: calculate_tsi plotRadius ps
      | none => p :: ps

/-- The stand-alone `__main__` pipeline, lines 178–191 of the source:
create the cardinal file, extract elevations into plots and cardinals (the
cardinal file was created with the plot file's spatial reference, line 48),
aggregate z-hat, normalize to TSI.  An uncaught exception in
`calculate_zhat` aborts the run. -/
def run_pipeline (reproject : RasterLayer → SpatialReference → RasterLayer)
    (cos45 inputRadius : ℚ) (plotSR : SpatialReference)
    (inputRaster : RasterLayer) (pts : List PointRec) :
    Except String (List PointRec) :=
  let cards0 := create_cardinals cos45 inputRadius pts
  let pts1 := (raster_extract reproject plotSR pts inputRaster []).1
  let cards1 := (raster_extract reproject plotSR cards0 inputRaster []).1
  match calculate_zhat pts1 cards1 with
  | .error e => .error e
  | .ok pts2 => .ok (calculate_tsi inputRadius pts2)

/-- Every attribute of a row except `RasElev` (frame of `extract_elevation`). -/
def fieldsExceptElev (p : PointRec) : ℚ × ℚ × ℕ × Option ℚ × Option ℚ :=
  (p.x, p.y, p.ownerId, p.zhat, p.tsi)

/-- Every attribute of a row except `ZHat` (frame of `calculate_zhat`). -/
def fieldsExceptZhat (p : PointRec) : ℚ × ℚ × ℕ × Option ℚ × Option ℚ :=
  (p.x, p.y, p.ownerId, p.elev, p.tsi)

/-- Every attribute of a row except `TSI` (frame of `calculate_tsi`). -/
def fieldsExceptTsi (p : PointRec) : ℚ × ℚ × ℕ × Option ℚ × Option ℚ :=
  (p.x, p.y, p.ownerId, p.elev, p.zhat)

/-- The `SHAPE@XY` coordinate of a row. -/
def coordsOf (p : PointRec) : ℚ × ℚ :=
  (p.x, p.y)

/-- Coordinate and elevation of a row — everything `extract_elevation` reads
or writes. -/
def ceOf (p : PointRec) : ℚ × ℚ × Option ℚ :=
  (p.x, p.y, p.elev)

/-- Apply a list of `(FID, zhat)` writes in order. -/
def applyWrites (ws : List (ℕ × ℚ)) (pts : List PointRec) : List PointRec :=
  ws.foldl (fun acc iz => setZhat acc iz.1 iz.2) pts

/-- The `(FID, zhat)` pairs the `calculate_zhat` loop would write, or the
first uncaught exception. -/
def zhatWritesGo (cards : List PointRec) (pointElevs : List (Option ℚ)) :
    List ℕ → Except String (List (ℕ × ℚ))
  | [] => .ok []
  | i :: rest =>
      match zhatValue cards pointElevs i with
      | .error e => .error e
      | .ok z =>
          match zhatWritesGo cards pointElevs rest with
          | .error e => .error e
          | .ok ws => .ok ((i, z) :: ws)

/-! ### Concrete fixtures used by witnesses and counterexamples -/

/-- A raster sampling function that fails at `x = 0` and yields `7`
everywhere else. -/
def wSample : ℚ → ℚ → Option ℚ := fun x _ => if x = 0 then none else some 7

/-- A not-yet-sampled point at `(0, 0)` (where `wSample` fails). -/
def wP0 : PointRec := { x := 0, y := 0, ownerId := 0, elev := none, zhat := none, tsi := none }

/-- A not-yet-sampled point at `(1, 0)` (where `wSample` succeeds). -/
def wP1 : PointRec := { x := 1, y := 0, ownerId := 0, elev := none, zhat := none, tsi := none }

/-- A not-yet-sampled point at `(2, 0)` (where `wSample` succeeds). -/
def wP2 : PointRec := { x := 2, y := 0, ownerId := 0, elev := none, zhat := none, tsi := none }

/-- A plot row with sampled elevation 10. -/
def cPlot : PointRec := { x := 0, y := 0, ownerId := 0, elev := some 10, zhat := none, tsi := none }

/-- A cardinal row of plot 0 with sampled elevation 12. -/
def cCard1 : PointRec := { x := 0, y := 2, ownerId := 0, elev := some 12, zhat := none, tsi := none }

/-- A cardinal row of plot 0 with sampled elevation 8. -/
def cCard2 : PointRec := { x := 2, y := 0, ownerId := 0, elev := some 8, zhat := none, tsi := none }

/-- A cardinal row of plot 0 whose elevation sampling failed (`RasElev` unset). -/
def cCardBad : PointRec := { x := 0, y := -2, ownerId := 0, elev := none, zhat := none, tsi := none }

/-- A cardinal row owned by plot 1 with sampled elevation 12. -/
def gCard : PointRec := { x := 1, y := 2, ownerId := 1, elev := some 12, zhat := none, tsi := none }

/-- A plot row with no z-hat (aggregation never reached it). -/
def fP0 : PointRec := { x := 0, y := 0, ownerId := 0, elev := none, zhat := none, tsi := none }

/-- A plot row with z-hat 5 and no TSI yet. -/
def fP1 : PointRec := { x := 1, y := 0, ownerId := 0, elev := none, zhat := some 5, tsi := none }

/-- A plot row with elevation 1 and z-hat 4. -/
def eP0 : PointRec := { x := 0, y := 0, ownerId := 0, elev := some 1, zhat := some 4, tsi := none }

/-- A second plot row, unsampled. -/
def eP1 : PointRec := { x := 1, y := 0, ownerId := 0, elev := none, zhat := none, tsi := none }

/-- A spatial reference named `GCS_WGS_1984` with one datum definition. -/
def srA : SpatialReference := { name := "GCS_WGS_1984", wkt := "wktA" }

/-- A different spatial reference carrying the same name. -/
def srB : SpatialReference := { name := "GCS_WGS_1984", wkt := "wktB" }

/-- A spatial reference with a different name. -/
def srC : SpatialReference := { name := "NAD_1983", wkt := "wktC" }

/-- A raster in `srB` whose surface is constant 3. -/
def wRaster : RasterLayer := { sr := srB, sample := fun _ _ => some 3 }

/-- A raster in `srB` whose surface is constant 5. -/
def wRaster5 : RasterLayer := { sr := srB, sample := fun _ _ => some 5 }

/-- The state of the plot row of `wP0` after one successful pipeline run
over the constant-5 raster with radius 2. -/
def wFixed : PointRec := { x := 0, y := 0, ownerId := 0, elev := some 5, zhat := some 0, tsi := some 0 }

/-- A trivial external reprojection service: change the declared spatial
reference, keep the surface. -/
def wReproject : RasterLayer → SpatialReference → RasterLayer :=
  fun R s => { sr := s, sample := R.sample }

/-! ### Basic record and list helpers -/

theorem PointRec.update_elev_self (p : PointRec) {v : ℚ} (h : p.elev = some v) :
    { p with elev := some v } = p := by
  rw [← h]

theorem PointRec.update_zhat_self (p : PointRec) {z : ℚ} (h : p.zhat = some z) :
    { p with zhat := some z } = p := by
  rw [← h]

theorem get?_some_lt {α : Type} {l : List α} {n : ℕ} {a : α}
    (h : l.get? n = some a) : n < l.length := by
  by_contra hc
  rw [List.get?_eq_none.mpr (Nat.le_of_not_lt hc)] at h
  exact Option.noConfusion h

theorem map_comp_eq {α β γ : Type} (f : α → β) (g : β → γ) {l l' : List α}
    (h : l.map f = l'.map f) :
    l.map (fun a => g (f a)) = l'.map (fun a => g (f a)) := by
  have : (fun a => g (f a)) = g ∘ f := rfl
  rw [this, ← List.map_map, ← List.map_map, h]

/-! ### `extract_elevation`: frame, stability -/

theorem extract_elevation_frame (sample : ℚ → ℚ → Option ℚ) :
    ∀ l : List PointRec,
      (extract_elevation sample l).map fieldsExceptElev = l.map fieldsExceptElev
  | [] => rfl
  | p :: ps => by
      cases hs : sample p.x p.y with
      | some v =>
          simp only [extract_elevation, hs, List.map_cons,
            extract_elevation_frame sample ps]
          rfl
      | none => simp [extract_elevation, hs]

theorem extract_elevation_length (sample : ℚ → ℚ → Option ℚ)
    (l : List PointRec) :
    (extract_elevation sample l).length = l.length := by
  have h := extract_elevation_frame sample l
  have := congrArg List.length h
  simpa using this

theorem extract_elevation_cons_some {sample : ℚ → ℚ → Option ℚ}
    {p : PointRec} {v : ℚ} (ps : List PointRec) (hs : sample p.x p.y = some v) :
    extract_elevation sample (p :: ps)
      = { p with elev := some v } :: extract_elevation sample ps := by
  rw [extract_elevation, hs]

theorem extract_elevation_cons_none {sample : ℚ → ℚ → Option ℚ}
    {p : PointRec} (ps : List PointRec) (hs : sample p.x p.y = none) :
    extract_elevation sample (p :: ps) = p :: ps := by
  rw [extract_elevation, hs]

theorem extract_elevation_stable (sample : ℚ → ℚ → Option ℚ) :
    ∀ (l l' : List PointRec),
      l'.map ceOf = (extract_elevation sample l).map ceOf →
      extract_elevation sample l' = l'
  | [], l', h => by
      simp only [extract_elevation, List.map_nil, List.map_eq_nil] at h
      rw [h]
      rfl
  | p :: ps, l', h => by
      cases hs : sample p.x p.y with
      | some v =>
          rw [extract_elevation_cons_some ps hs] at h
          cases l' with
          | nil => exact absurd h (by simp)
          | cons q qs =>
              simp only [List.map_cons, List.cons.injEq] at h
              obtain ⟨hq, hqs⟩ := h
              have hqx : q.x = p.x := congrArg (fun t => t.1) hq
              have hqy : q.y = p.y := congrArg (fun t => t.2.1) hq
              have hqe : q.elev = some v := congrArg (fun t => t.2.2) hq
              have hs' : sample q.x q.y = some v := by rw [hqx, hqy]; exact hs
              rw [extract_elevation_cons_some qs hs',
                PointRec.update_elev_self q hqe,
                extract_elevation_stable sample ps qs hqs]
      | none =>
          rw [extract_elevation_cons_none ps hs] at h
          cases l' with
          | nil => exact absurd h (by simp)
          | cons q qs =>
              simp only [List.map_cons, List.cons.injEq] at h
              obtain ⟨hq, hqs⟩ := h
              have hqx : q.x = p.x := congrArg (fun t => t.1) hq
              have hqy : q.y = p.y := congrArg (fun t => t.2.1) hq
              have hs' : sample q.x q.y = none := by rw [hqx, hqy]; exact hs
              rw [extract_elevation_cons_none qs hs']

/-! ### `setZhat` and `applyWrites`: frame, lookup, self-stability -/

theorem setZhat_frame :
    ∀ (l : List PointRec) (i : ℕ) (z : ℚ),
      (setZhat l i z).map fieldsExceptZhat = l.map fieldsExceptZhat
  | [], _, _ => rfl
  | _ :: ps, 0, z => by simp [setZhat, fieldsExceptZhat]
  | p :: ps, i + 1, z => by
      simp [setZhat, setZhat_frame ps i z]

theorem setZhat_get?_ne :
    ∀ (l : List PointRec) (i j : ℕ) (z : ℚ), j ≠ i →
      (setZhat l i z).get? j = l.get? j
  | [], _, _, _, _ => rfl
  | p :: ps, 0, j, z, hne => by
      cases j with
      | zero => exact absurd rfl hne
      | succ j => rfl
  | p :: ps, i + 1, j, z, hne => by
      cases j with
      | zero => rfl
      | succ j =>
          simpa [setZhat] using setZhat_get?_ne ps i j z (fun h => hne (by rw [h]))

theorem setZhat_get?_self :
    ∀ (l : List PointRec) (i : ℕ) (z : ℚ),
      (setZhat l i z).get? i = (l.get? i).map (fun p => { p with zhat := some z })
  | [], _, _ => rfl
  | p :: ps, 0, z => rfl
  | p :: ps, i + 1, z => by
      simpa [setZhat] using setZhat_get?_self ps i z

theorem setZhat_eq_self :
    ∀ (l : List PointRec) (i : ℕ) (z : ℚ),
      (∀ p, l.get? i = some p → p.zhat = some z) →
      setZhat l i z = l
  | [], _, _, _ => rfl
  | p :: ps, 0, z, h => by
      rw [setZhat, PointRec.update_zhat_self p (h p rfl)]
  | p :: ps, i + 1, z, h => by
      rw [setZhat, setZhat_eq_self ps i z (fun q hq => h q hq)]

theorem applyWrites_frame (ws : List (ℕ × ℚ)) :
    ∀ l : List PointRec,
      (applyWrites ws l).map fieldsExceptZhat = l.map fieldsExceptZhat := by
  induction ws with
  | nil => intro l; rfl
  | cons iz rest ih =>
      intro l
      show (applyWrites rest (setZhat l iz.1 iz.2)).map fieldsExceptZhat
        = l.map fieldsExceptZhat
      rw [ih, setZhat_frame]

theorem applyWrites_get?_not_mem (ws : List (ℕ × ℚ)) :
    ∀ (l : List PointRec) (j : ℕ), j ∉ ws.map Prod.fst →
      (applyWrites ws l).get? j = l.get? j := by
  induction ws with
  | nil => intro l j _; rfl
  | cons iz rest ih =>
      intro l j hj
      simp only [List.map_cons, List.mem_cons, not_or] at hj
      show (applyWrites rest (setZhat l iz.1 iz.2)).get? j = l.get? j
      rw [ih _ j hj.2, setZhat_get?_ne l iz.1 j iz.2 hj.1]

theorem applyWrites_get?_mem (ws : List (ℕ × ℚ)) :
    ∀ (l : List PointRec) (i : ℕ) (z : ℚ),
      (ws.map Prod.fst).Nodup → (i, z) ∈ ws →
      (applyWrites ws l).get? i = (l.get? i).map (fun p => { p with zhat := some z }) := by
  induction ws with
  | nil => intro l i z _ hm; exact absurd hm (List.not_mem_nil _)
  | cons iz rest ih =>
      intro l i z hnd hm
      simp only [List.map_cons, List.nodup_cons] at hnd
      rcases List.mem_cons.mp hm with hhead | htail
      · have hi : iz.1 = i := by rw [← hhead]
        have hz : iz.2 = z := by rw [← hhead]
        have hnot : i ∉ rest.map Prod.fst := by  rw [← hi]; exact hnd.1
        show (applyWrites rest (setZhat l iz.1 iz.2)).get? i
          = (l.get? i).map (fun p => { p with zhat := some z })
        rw [applyWrites_get?_not_mem rest _ i hnot, hi, hz, setZhat_get?_self]
      · show (applyWrites rest (setZhat l iz.1 iz.2)).get? i
          = (l.get? i).map (fun p => { p with zhat := some z })
        have hne : i ≠ iz.1 := by
          intro hcontra
          exact hnd.1 (hcontra ▸ (List.mem_map.mpr ⟨(i, z), htail, rfl⟩))
        rw [ih _ i z hnd.2 htail, setZhat_get?_ne l iz.1 i iz.2 hne]

theorem applyWrites_eq_self (ws : List (ℕ × ℚ)) :
    ∀ l : List PointRec,
      (∀ iz ∈ ws, ∀ p, l.get? iz.1 = some p → p.zhat = some iz.2) →
      applyWrites ws l = l := by
  induction ws with
  | nil => intro l _; rfl
  | cons iz rest ih =>
      intro l h
      show applyWrites rest (setZhat l iz.1 iz.2) = l
      rw [setZhat_eq_self l iz.1 iz.2 (h iz (List.mem_cons_self iz rest))]
      exact ih l (fun jz hjz => h jz (List.mem_cons_of_mem iz hjz))

/-! ### `calculate_zhat`: factorization through the write list, frame -/

theorem zhatWritesGo_ok_fst (cards : List PointRec) (pes : List (Option ℚ)) :
    ∀ (ids : List ℕ) (ws : List (ℕ × ℚ)),
      zhatWritesGo cards pes ids = .ok ws → ws.map Prod.fst = ids := by
  intro ids
  induction ids with
  | nil =>
      intro ws h
      simp only [zhatWritesGo] at h
      injection h with h
      rw [← h]
      rfl
  | cons i rest ih =>
      intro ws h
      rw [zhatWritesGo] at h
      cases hv : zhatValue cards pes i with
      | error e => rw [hv] at h; exact absurd h (by simp)
      | ok z =>
          rw [hv] at h
          cases hr : zhatWritesGo cards pes rest with
          | error e => rw [hr] at h; exact absurd h (by simp)
          | ok ws' =>
              rw [hr] at h
              injection h with h
              rw [← h, List.map_cons, ih ws' hr]

theorem zhatWritesGo_ok_mem (cards : List PointRec) (pes : List (Option ℚ)) :
    ∀ (ids : List ℕ) (ws : List (ℕ × ℚ)),
      zhatWritesGo cards pes ids = .ok ws →
      ∀ iz ∈ ws, zhatValue cards pes iz.1 = .ok iz.2 := by
  intro ids
  induction ids with
  | nil =>
      intro ws h iz hm
      simp only [zhatWritesGo] at h
      injection h with h
      rw [← h] at hm
      exact absurd hm (List.not_mem_nil _)
  | cons i rest ih =>
      intro ws h iz hm
      rw [zhatWritesGo] at h
      cases hv : zhatValue cards pes i with
      | error e => rw [hv] at h; exact absurd h (by simp)
      | ok z =>
          rw [hv] at h
          cases hr : zhatWritesGo cards pes rest with
          | error e => rw [hr] at h; exact absurd h (by simp)
          | ok ws' =>
              rw [hr] at h
              injection h with h
              rw [← h] at hm
              rcases List.mem_cons.mp hm with hhead | htail
              · rw [hhead]; exact hv
              · exact ih ws' hr iz htail

theorem zhatValue_ok_lt {cards : List PointRec} {pes : List (Option ℚ)}
    {i : ℕ} {z : ℚ} (h : zhatValue cards pes i = .ok z) : i < pes.length := by
  rw [zhatValue] at h
  by_cases hg : cards.filter (fun q => q.ownerId == i) = []
  · rw [if_pos hg] at h
    exact absurd h (by simp)
  · rw [if_neg hg] at h
    cases hp : pes.get? i with
    | none => rw [hp] at h; exact absurd h (by simp)
    | some o => exact get?_some_lt hp

theorem zhatWritesGo_error_of_mem (cards : List PointRec)
    (pes : List (Option ℚ)) {i : ℕ} {e : String} :
    ∀ ids : List ℕ, i ∈ ids → zhatValue cards pes i = .error e →
      ∃ e', zhatWritesGo cards pes ids = .error e' := by
  intro ids
  induction ids with
  | nil => intro hm _; exact absurd hm (List.not_mem_nil _)
  | cons j rest ih =>
      intro hm hv
      rcases List.mem_cons.mp hm with hhead | htail
      · exact ⟨e, by rw [zhatWritesGo, ← hhead, hv]⟩
      · cases hw : zhatValue cards pes j with
        | error e' => exact ⟨e', by rw [zhatWritesGo, hw]⟩
        | ok z =>
            obtain ⟨e', he'⟩ := ih htail hv
            exact ⟨e', by rw [zhatWritesGo, hw, he']⟩

theorem calculate_zhat_go_eq (cards : List PointRec) (pes : List (Option ℚ)) :
    ∀ (ids : List ℕ) (pts : List PointRec),
      calculate_zhat_go cards pes ids pts =
        match zhatWritesGo cards pes ids with
        | .error e => .error e
        | .ok ws => .ok (applyWrites ws pts) := by
  intro ids
  induction ids with
  | nil => intro pts; rfl
  | cons i rest ih =>
      intro pts
      cases hv : zhatValue cards pes i with
      | error e => simp [calculate_zhat_go, zhatWritesGo, hv]
      | ok z =>
          simp only [calculate_zhat_go, zhatWritesGo, hv]
          rw [ih (setZhat pts i z)]
          cases hr : zhatWritesGo cards pes rest with
          | error e => simp [hr]
          | ok ws => simp [hr, applyWrites]

theorem calculate_zhat_eq (pts cards : List PointRec) :
    calculate_zhat pts cards =
      match zhatWritesGo cards (pts.map (fun p => p.elev)) (uniqueOwnerIds cards) with
      | .error e => .error e
      | .ok ws => .ok (applyWrites ws pts) := by
  unfold calculate_zhat
  exact calculate_zhat_go_eq cards (pts.map (fun p => p.elev)) (uniqueOwnerIds cards) pts

theorem calculate_zhat_ok_frame {pts cards out : List PointRec}
    (h : calculate_zhat pts cards = .ok out) :
    out.map fieldsExceptZhat = pts.map fieldsExceptZhat := by
  rw [calculate_zhat_eq] at h
  cases hw : zhatWritesGo cards (pts.map (fun p => p.elev)) (uniqueOwnerIds cards) with
  | error e => rw [hw] at h; exact absurd h (by simp)
  | ok ws =>
      rw [hw] at h
      injection h with h
      rw [← h]
      exact applyWrites_frame ws pts

/-! ### `calculate_tsi`: equations, frame, idempotence, abort behaviour -/

theorem calculate_tsi_cons_some {p : PointRec} {z : ℚ} (r : ℚ)
    (ps : List PointRec) (hz : p.zhat = some z) :
    calculate_tsi r (p :: ps)
      = { p with tsi := some (z / r) } :: calculate_tsi r ps := by
  rw [calculate_tsi, hz]

theorem calculate_tsi_cons_none {p : PointRec} (r : ℚ)
    (ps : List PointRec) (hz : p.zhat = none) :
    calculate_tsi r (p :: ps) = p :: ps := by
  rw [calculate_tsi, hz]

theorem calculate_tsi_frame (r : ℚ) :
    ∀ l : List PointRec,
      (calculate_tsi r l).map fieldsExceptTsi = l.map fieldsExceptTsi
  | [] => rfl
  | p :: ps => by
      cases hz : p.zhat with
      | some z =>
          rw [calculate_tsi_cons_some r ps hz, List.map_cons, List.map_cons,
            calculate_tsi_frame r ps]
          rfl
      | none => rw [calculate_tsi_cons_none r ps hz]

theorem calculate_tsi_idem (r : ℚ) :
    ∀ l : List PointRec, calculate_tsi r (calculate_tsi r l) = calculate_tsi r l
  | [] => rfl
  | p :: ps => by
      cases hz : p.zhat with
      | some z =>
          rw [calculate_tsi_cons_some r ps hz]
          have hz' : ({ p with tsi := some (z / r) } : PointRec).zhat = some z := hz
          rw [calculate_tsi_cons_some r (calculate_tsi r ps) hz',
            calculate_tsi_idem r ps]
      | none =>
          rw [calculate_tsi_cons_none r ps hz,
            calculate_tsi_cons_none r ps hz]

theorem calculate_tsi_get?_of_zhat_none (r : ℚ) :
    ∀ (l : List PointRec) (i : ℕ) (p : PointRec),
      l.get? i = some p → p.zhat = none →
      (calculate_tsi r l).get? i = some p
  | [], i, p, hp, _ => absurd hp (by simp)
  | q :: qs, 0, p, hp, hz => by
      injection hp with hp
      subst hp
      rw [calculate_tsi_cons_none r qs hz]
      rfl
  | q :: qs, i + 1, p, hp, hz => by
      cases hq : q.zhat with
      | some z =>
          rw [calculate_tsi_cons_some r qs hq]
          exact calculate_tsi_get?_of_zhat_none r qs i p hp hz
      | none => rw [calculate_tsi_cons_none r qs hq]; exact hp

theorem calculate_tsi_suffix_unchanged (r : ℚ) :
    ∀ (l : List PointRec) (i : ℕ) (p : PointRec),
      l.get? i = some p → p.zhat = none →
      ∀ k, i ≤ k → (calculate_tsi r l).get? k = l.get? k
  | [], i, p, hp, _, _, _ => absurd hp (by simp)
  | q :: qs, 0, p, hp, hz, k, _ => by
      injection hp with hp
      subst hp
      rw [calculate_tsi_cons_none r qs hz]
  | q :: qs, i + 1, p, hp, hz, k, hk => by
      cases hq : q.zhat with
      | some z =>
          obtain ⟨k', rfl⟩ : ∃ k', k = k' + 1 :=
            ⟨k - 1, by omega⟩
          rw [calculate_tsi_cons_some r qs hq]
          exact calculate_tsi_suffix_unchanged r qs i p hp hz k' (by omega)
      | none => rw [calculate_tsi_cons_none r qs hq]

theorem calculate_tsi_get?_of_prefix (r : ℚ) :
    ∀ (l : List PointRec) (i : ℕ) (p : PointRec) (z : ℚ),
      (∀ j, j < i → ∃ q z', l.get? j = some q ∧ q.zhat = some z') →
      l.get? i = some p → p.zhat = some z →
      (calculate_tsi r l).get? i = some { p with tsi := some (z / r) }
  | [], i, p, z, _, hp, _ => absurd hp (by simp)
  | q :: qs, 0, p, z, _, hp, hz => by
      injection hp with hp
      subst hp
      rw [calculate_tsi_cons_some r qs hz]
      rfl
  | q :: qs, i + 1, p, z, hall, hp, hz => by
      obtain ⟨q', z', hq', hz'⟩ := hall 0 (Nat.succ_pos i)
      injection hq' with hq'
      subst hq'
      rw [calculate_tsi_cons_some r qs hz']
      exact calculate_tsi_get?_of_prefix r qs i p z
        (fun j hj => hall (j + 1) (Nat.succ_lt_succ hj)) hp hz

/-! ### `create_cardinals`: counts, owner tags, coordinate dependence -/

theorem cardinalRows_length (cos45 plotRadius : ℚ) (fid : ℕ) (p : PointRec) :
    (cardinalRows cos45 plotRadius fid p).length = 8 := by
  simp [cardinalRows, cardinalOffsets]

theorem cardinalRows_owner (cos45 plotRadius : ℚ) (fid : ℕ) (p : PointRec) :
    ∀ q ∈ cardinalRows cos45 plotRadius fid p, q.ownerId = fid := by
  intro q hq
  simp only [cardinalRows, List.mem_map] at hq
  obtain ⟨xy, _, rfl⟩ := hq
  rfl

theorem cardinalRows_coords_congr (cos45 plotRadius : ℚ) (fid : ℕ)
    {p q : PointRec} (hx : q.x = p.x) (hy : q.y = p.y) :
    cardinalRows cos45 plotRadius fid q = cardinalRows cos45 plotRadius fid p := by
  rw [cardinalRows, cardinalRows, hx, hy]

theorem create_cardinals_go_owner_bounds (cos45 plotRadius : ℚ) :
    ∀ (pts : List PointRec) (fid : ℕ) (q : PointRec),
      q ∈ create_cardinals_go cos45 plotRadius fid pts →
      fid ≤ q.ownerId ∧ q.ownerId < fid + pts.length
  | [], fid, q, hq => absurd hq (List.not_mem_nil q)
  | p :: ps, fid, q, hq => by
      rw [create_cardinals_go] at hq
      rcases List.mem_append.mp hq with hrow | hrest
      · rw [cardinalRows_owner cos45 plotRadius fid p q hrow]
        simp
      · have := create_cardinals_go_owner_bounds cos45 plotRadius ps (fid + 1) q hrest
        constructor
        · omega
        · simpa [Nat.add_comm, Nat.add_assoc, Nat.add_left_comm] using this.2

theorem create_cardinals_go_filter_length (cos45 plotRadius : ℚ) :
    ∀ (pts : List PointRec) (fid j : ℕ), fid ≤ j → j < fid + pts.length →
      ((create_cardinals_go cos45 plotRadius fid pts).filter
          (fun q => q.ownerId == j)).length = 8
  | [], fid, j, h1, h2 => by simp at h2; omega
  | p :: ps, fid, j, h1, h2 => by
      rw [create_cardinals_go, List.filter_append, List.length_append]
      by_cases hj : j = fid
      · subst hj
        have hrow : (cardinalRows cos45 plotRadius j p).filter
            (fun q => q.ownerId == j) = cardinalRows cos45 plotRadius j p := by
          apply List.filter_eq_self.mpr
          intro q hq
          exact beq_iff_eq.mpr (cardinalRows_owner cos45 plotRadius j p q hq)
        have hrest : (create_cardinals_go cos45 plotRadius (j + 1) ps).filter
            (fun q => q.ownerId == j) = [] := by
          apply List.filter_eq_nil.mpr
          intro q hq
          have := (create_cardinals_go_owner_bounds cos45 plotRadius ps (j + 1) q hq).1
          intro hbeq
          have := beq_iff_eq.mp hbeq
          omega
        rw [hrow, hrest, cardinalRows_length]
        rfl
      · have hrow : (cardinalRows cos45 plotRadius fid p).filter
            (fun q => q.ownerId == j) = [] := by
          apply List.filter_eq_nil.mpr
          intro q hq
          rw [cardinalRows_owner cos45 plotRadius fid p q hq]
          intro hbeq
          exact hj (beq_iff_eq.mp hbeq).symm
        rw [hrow]
        have := create_cardinals_go_filter_length cos45 plotRadius ps (fid + 1) j
          (by omega) (by simp at h2 ⊢; omega)
        rw [this]
        rfl

theorem create_cardinals_go_coords_congr (cos45 plotRadius : ℚ) :
    ∀ (pts pts' : List PointRec) (fid : ℕ),
      pts'.map coordsOf = pts.map coordsOf →
      create_cardinals_go cos45 plotRadius fid pts'
        = create_cardinals_go cos45 plotRadius fid pts
  | [], pts', fid, h => by
      simp only [List.map_nil, List.map_eq_nil] at h
      rw [h]
  | p :: ps, pts', fid, h => by
      cases pts' with
      | nil => exact absurd h (by simp)
      | cons q qs =>
          simp only [List.map_cons, List.cons.injEq] at h
          obtain ⟨hq, hqs⟩ := h
          have hx : q.x = p.x := congrArg Prod.fst hq
          have hy : q.y = p.y := congrArg Prod.snd hq
          rw [create_cardinals_go, create_cardinals_go,
            cardinalRows_coords_congr cos45 plotRadius fid hx hy,
            create_cardinals_go_coords_congr cos45 plotRadius ps qs (fid + 1) hqs]

theorem create_cardinals_coords_congr (cos45 plotRadius : ℚ)
    {pts pts' : List PointRec} (h : pts'.map coordsOf = pts.map coordsOf) :
    create_cardinals cos45 plotRadius pts' = create_cardinals cos45 plotRadius pts :=
  create_cardinals_go_coords_congr cos45 plotRadius pts pts' 0 h

/-! ### `raster_extract`: the two branches -/

theorem raster_extract_name_match
    (reproject : RasterLayer → SpatialReference → RasterLayer)
    {pointSR : SpatialReference} (rows : List PointRec)
    {elevationRaster : RasterLayer} (workspace : List String)
    (h : pointSR.name = elevationRaster.sr.name) :
    raster_extract reproject pointSR rows elevationRaster workspace
      = (extract_elevation elevationRaster.sample rows, 0, workspace) := by
  rw [raster_extract, if_pos h]

theorem raster_extract_name_mismatch
    (reproject : RasterLayer → SpatialReference → RasterLayer)
    {pointSR : SpatialReference} (rows : List PointRec)
    {elevationRaster : RasterLayer} (workspace : List String)
    (h : pointSR.name ≠ elevationRaster.sr.name) :
    raster_extract reproject pointSR rows elevationRaster workspace
      = (extract_elevation (reproject elevationRaster pointSR).sample rows, 1,
          workspace.filter (fun n => n ≠ "outraster.tif")) := by
  rw [raster_extract, if_neg h]
  simp [List.filter_filter]

theorem raster_extract_rows
    (reproject : RasterLayer → SpatialReference → RasterLayer)
    (pointSR : SpatialReference) (rows : List PointRec)
    (elevationRaster : RasterLayer) (workspace : List String) :
    (raster_extract reproject pointSR rows elevationRaster workspace).1
      = extract_elevation
          (if pointSR.name = elevationRaster.sr.name then elevationRaster.sample
           else (reproject elevationRaster pointSR).sample) rows := by
  by_cases h : pointSR.name = elevationRaster.sr.name
  · rw [raster_extract_name_match reproject rows workspace h, if_pos h]
  · rw [raster_extract_name_mismatch reproject rows workspace h, if_neg h]

/-! ### `zhatValue`: evaluation under valid and invalid elevations -/

theorem allSome_of_forall_some :
    ∀ l : List (Option ℚ), (∀ o ∈ l, ∃ v, o = some v) →
      allSome l = some (l.filterMap id)
  | [], _ => rfl
  | o :: rest, h => by
      obtain ⟨v, rfl⟩ := h o (List.mem_cons_self o rest)
      rw [allSome, allSome_of_forall_some rest
        (fun o' ho' => h o' (List.mem_cons_of_mem _ ho'))]
      rfl

theorem filterMap_id_length_of_forall_some :
    ∀ l : List (Option ℚ), (∀ o ∈ l, ∃ v, o = some v) →
      (l.filterMap id).length = l.length
  | [], _ => rfl
  | o :: rest, h => by
      obtain ⟨v, rfl⟩ := h o (List.mem_cons_self o rest)
      simp only [List.filterMap_cons, id, List.length_cons]
      rw [filterMap_id_length_of_forall_some rest
        (fun o' ho' => h o' (List.mem_cons_of_mem _ ho'))]

theorem zhatValue_ok_of_valid (cards : List PointRec) (pes : List (Option ℚ))
    (i : ℕ) (pe : ℚ)
    (hne : cards.filter (fun q => q.ownerId == i) ≠ [])
    (hpe : pes.get? i = some (some pe))
    (hall : ∀ q ∈ cards.filter (fun q => q.ownerId == i), ∃ v, q.elev = some v) :
    zhatValue cards pes i =
      .ok ((((cards.filter (fun q => q.ownerId == i)).filterMap
              (fun q => q.elev)).map (fun v => v - pe)).sum /
            ((cards.filter (fun q => q.ownerId == i)).length : ℚ)) := by
  have hmap : ∀ o ∈ (cards.filter (fun q => q.ownerId == i)).map
      (fun q => q.elev), ∃ v, o = some v := by
    intro o ho
    obtain ⟨q, hq, rfl⟩ := List.mem_map.mp ho
    exact hall q hq
  rw [zhatValue]
  simp only [if_neg hne, hpe]
  rw [allSome_of_forall_some _ hmap]
  simp only [Except.ok.injEq]
  congr 1
  · rw [List.filterMap_map]
    rfl
  · rw [List.length_map, filterMap_id_length_of_forall_some _ hmap,
      List.length_map]

theorem zhatValue_error_of_all_none (cards : List PointRec)
    (pes : List (Option ℚ)) (i : ℕ)
    (hne : cards.filter (fun q => q.ownerId == i) ≠ [])
    (hall : ∀ q ∈ cards.filter (fun q => q.ownerId == i), q.elev = none) :
    ∃ e, zhatValue cards pes i = .error e := by
  rw [zhatValue]
  simp only [if_neg hne]
  cases hp : pes.get? i with
  | none => exact ⟨"IndexError", rfl⟩
  | some o =>
      cases o with
      | none => exact ⟨"TypeError", rfl⟩
      | some pe =>
          cases hg : cards.filter (fun q => q.ownerId == i) with
          | nil => exact absurd hg hne
          | cons q qs =>
              have hq : q.elev = none :=
                hall q (hg ▸ List.mem_cons_self q qs)
              refine ⟨"TypeError", ?_⟩
              simp [List.map_cons, hq, allSome]

/-! ## The claims -/

/-- Claim C2 (confirmed): for every center `(x, y)` and radius `r > 0`,
`create_cardinals`' offset generation produces exactly 8 coordinates in the
fixed source order N, S, E, W, NE, SE, NW, SW — `N(x, y+r)`, `S(x, y−r)`,
`E(x+r, y)`, `W(x−r, y)` and the four diagonals at `±d` on both axes — with
`d = r·cos 45° = r·√2/2`.  The embedding is a pure function of `(x, y, r)`,
so the center point is not affected. -/
theorem claim_C2 (x y r : ℝ) (h : 0 < r) :
    cardinalOffsets (Real.cos (45 * Real.pi / 180)) x y r =
      [(x, y + r), (x, y - r), (x + r, y), (x - r, y),
       (x + r * (Real.sqrt 2 / 2), y + r * (Real.sqrt 2 / 2)),
       (x + r * (Real.sqrt 2 / 2), y - r * (Real.sqrt 2 / 2)),
       (x - r * (Real.sqrt 2 / 2), y + r * (Real.sqrt 2 / 2)),
       (x - r * (Real.sqrt 2 / 2), y - r * (Real.sqrt 2 / 2))]
    ∧ (cardinalOffsets (Real.cos (45 * Real.pi / 180)) x y r).length = 8 := by
  have hc : Real.cos (45 * Real.pi / 180) = Real.sqrt 2 / 2 := by
    rw [show (45 : ℝ) * Real.pi / 180 = Real.pi / 4 by ring]
    exact Real.cos_pi_div_four
  refine ⟨?_, rfl⟩
  rw [cardinalOffsets, hc]
  simp [mul_comm]

/-- Witness for C2 at center `(0, 0)`, radius `1`. -/
theorem claim_C2_witness :
    (0 : ℝ) < 1 ∧
    (cardinalOffsets (Real.cos (45 * Real.pi / 180)) (0 : ℝ) 0 1 =
      [((0 : ℝ), 0 + 1), (0, 0 - 1), (0 + 1, 0), (0 - 1, 0),
       (0 + 1 * (Real.sqrt 2 / 2), 0 + 1 * (Real.sqrt 2 / 2)),
       (0 + 1 * (Real.sqrt 2 / 2), 0 - 1 * (Real.sqrt 2 / 2)),
       (0 - 1 * (Real.sqrt 2 / 2), 0 + 1 * (Real.sqrt 2 / 2)),
       (0 - 1 * (Real.sqrt 2 / 2), 0 - 1 * (Real.sqrt 2 / 2))]
      ∧ (cardinalOffsets (Real.cos (45 * Real.pi / 180)) (0 : ℝ) 0 1).length = 8) :=
  ⟨one_pos, claim_C2 0 0 1 one_pos⟩

/-- Counterexample to C3 as stated: `wSample` fails at `wP0` but succeeds at
`wP2`; the claim says `wP2`'s sampling still proceeds, yet the whole batch is
returned untouched — `wP2.elev` stays `none`. -/
theorem claim_C3_counterexample :
    wSample wP2.x wP2.y = some 7 ∧
    extract_elevation wSample [wP0, wP2] = [wP0, wP2] := by
  constructor
  · norm_num [wSample, wP2]
  · simp [extract_elevation, wSample, wP0, wP2]

/-- Claim C3 (corrected): a sampling failure at one point is caught and
logged and that point's elevation remains unset, and points before it in
cursor order are still sampled; but sampling of the points after it does not
proceed — the loop is aborted and they are left unchanged (their elevations
remain unset if they were unset). -/
theorem claim_C3 (sample : ℚ → ℚ → Option ℚ) (pre : List PointRec)
    (p : PointRec) (post : List PointRec)
    (hpre : ∀ q ∈ pre, ∃ v, sample q.x q.y = some v)
    (hp : sample p.x p.y = none) :
    extract_elevation sample (pre ++ p :: post)
      = pre.map (fun q => { q with elev := sample q.x q.y }) ++ p :: post := by
  induction pre with
  | nil =>
      simp only [List.nil_append, List.map_nil]
      exact extract_elevation_cons_none post hp
  | cons q pre' ih =>
      obtain ⟨v, hv⟩ := hpre q (List.mem_cons_self q pre')
      rw [List.cons_append, extract_elevation_cons_some _ hv,
        ih (fun q' hq' => hpre q' (List.mem_cons_of_mem q hq')),
        List.map_cons, hv]
      rfl

/-- Witness for C3: prefix `[wP1]` sampled, `wP0` fails, suffix `[wP2]`
left unsampled. -/
theorem claim_C3_witness :
    extract_elevation wSample ([wP1] ++ wP0 :: [wP2])
      = [wP1].map (fun q => { q with elev := wSample q.x q.y }) ++ wP0 :: [wP2] :=
  claim_C3 wSample [wP1] wP0 [wP2]
    (by
      intro q hq
      rw [List.mem_singleton] at hq
      subst hq
      exact ⟨7, by norm_num [wSample, wP1]⟩)
    (by norm_num [wSample, wP0])

/-- Counterexample to C5 as stated: `fP1` has a defined z-hat (5), yet after
`calculate_tsi` with radius 10 its TSI is still undefined, because the
preceding row `fP0` has no z-hat and the caught `TypeError` ends the update
loop. -/
theorem claim_C5_counterexample :
    fP1.zhat = some 5 ∧ calculate_tsi 10 [fP0, fP1] = [fP0, fP1] ∧ fP1.tsi = none := by
  refine ⟨rfl, ?_, rfl⟩
  simp [calculate_tsi, fP0]

/-- Claim C5 (corrected): `calculate_tsi` sets `TSI = z-hat / radius` for
every plot with a defined z-hat that is preceded only by plots with defined
z-hat; from the first plot without z-hat onward, rows are left unchanged
(that plot and all later ones keep an undefined TSI if it was undefined).
The stage never raises: the `TypeError` is caught and reported. -/
theorem claim_C5 (r : ℚ) (pts : List PointRec) :
    (∀ i p z, (∀ j, j < i → ∃ q z', pts.get? j = some q ∧ q.zhat = some z') →
      pts.get? i = some p → p.zhat = some z →
      (calculate_tsi r pts).get? i = some { p with tsi := some (z / r) })
    ∧ (∀ i p, pts.get? i = some p → p.zhat = none →
        ∀ k, i ≤ k → (calculate_tsi r pts).get? k = pts.get? k) :=
  ⟨fun i p z hall hp hz => calculate_tsi_get?_of_prefix r pts i p z hall hp hz,
   fun i p hp hz k hk => calculate_tsi_suffix_unchanged r pts i p hp hz k hk⟩

/-- Witness for C5: in `[eP0, eP1]` with radius 2, row 0 has z-hat 4 and gets
TSI `4 / 2`; row 1 has no z-hat and row 1 is left unchanged. -/
theorem claim_C5_witness :
    (calculate_tsi 2 [eP0, eP1]).get? 0 = some { eP0 with tsi := some (4 / 2) }
    ∧ (calculate_tsi 2 [eP0, eP1]).get? 1 = [eP0, eP1].get? 1 :=
  ⟨(claim_C5 2 [eP0, eP1]).1 0 eP0 4
      (fun j hj => absurd hj (by omega)) rfl rfl,
   (claim_C5 2 [eP0, eP1]).2 1 eP1 rfl rfl 1 (by omega)⟩

/-- Counterexample to C6 as stated: `srA` and `srB` are different spatial
references (different datum definitions) that share a name.  The claim says
the surface must then be reprojected exactly once, but `raster_extract`
performs no reprojection and samples the original surface directly. -/
theorem claim_C6_counterexample :
    srA ≠ srB ∧ srA ≠ wRaster.sr ∧
    (raster_extract wReproject srA [wP1] wRaster []).2.1 = 0 ∧
    (raster_extract wReproject srA [wP1] wRaster []).1
      = extract_elevation wRaster.sample [wP1] := by
  have h : srA.name = wRaster.sr.name := rfl
  rw [raster_extract_name_match wReproject [wP1] [] h]
  exact ⟨by decide, by decide, rfl, rfl⟩

/-- Claim C6 (corrected): the reprojection decision is keyed on the spatial
reference *names*, not the references themselves.  When the names differ,
the surface (not the points) is reprojected exactly once into the point
collection's reference before any sampling, the sampling uses the
reprojected surface, and the reprojected raster does not survive the call
(`outraster.tif` is absent from the resulting workspace); when the names
match, sampling uses the original surface directly and the workspace is
untouched. -/
theorem claim_C6 (reproject : RasterLayer → SpatialReference → RasterLayer)
    (pointSR : SpatialReference) (rows : List PointRec)
    (elevationRaster : RasterLayer) (workspace : List String) :
    (pointSR.name = elevationRaster.sr.name →
      raster_extract reproject pointSR rows elevationRaster workspace
        = (extract_elevation elevationRaster.sample rows, 0, workspace))
    ∧ (pointSR.name ≠ elevationRaster.sr.name →
        raster_extract reproject pointSR rows elevationRaster workspace
          = (extract_elevation (reproject elevationRaster pointSR).sample rows, 1,
              workspace.filter (fun n => n ≠ "outraster.tif"))
        ∧ "outraster.tif" ∉ (raster_extract reproject pointSR rows elevationRaster workspace).2.2) := by
  constructor
  · intro h
    exact raster_extract_name_match reproject rows workspace h
  · intro h
    refine ⟨raster_extract_name_mismatch reproject rows workspace h, ?_⟩
    rw [raster_extract_name_mismatch reproject rows workspace h]
    intro hmem
    have := (List.mem_filter.mp hmem).2
    simp at this

/-- Witness for C6: distinct names (`srA` vs `srC` as the raster's
reference) trigger exactly one reprojection into the points' reference,
with no leftover `outraster.tif`. -/
theorem claim_C6_witness :
    raster_extract wReproject srA [wP1] { sr := srC, sample := fun _ _ => some 3 } ["plots.shp"]
      = (extract_elevation (wReproject { sr := srC, sample := fun _ _ => some 3 } srA).sample [wP1], 1,
          ["plots.shp"].filter (fun n => n ≠ "outraster.tif"))
    ∧ "outraster.tif" ∉ (raster_extract wReproject srA [wP1]
        { sr := srC, sample := fun _ _ => some 3 } ["plots.shp"]).2.2 :=
  (claim_C6 wReproject srA [wP1] { sr := srC, sample := fun _ _ => some 3 }
    ["plots.shp"]).2 (by decide)

/-- Claim C9 (confirmed): the decision to reproject is made solely by
comparing the *names* of the two spatial references for string equality:
the reprojection count is 1 exactly when the names differ, and whenever the
names agree — in particular for spatial references that differ but share a
name — sampling proceeds directly on the unreprojected surface. -/
theorem claim_C9 (reproject : RasterLayer → SpatialReference → RasterLayer)
    (pointSR : SpatialReference) (rows : List PointRec)
    (elevationRaster : RasterLayer) (workspace : List String) :
    ((raster_extract reproject pointSR rows elevationRaster workspace).2.1 = 1
      ↔ pointSR.name ≠ elevationRaster.sr.name)
    ∧ (pointSR ≠ elevationRaster.sr → pointSR.name = elevationRaster.sr.name →
        (raster_extract reproject pointSR rows elevationRaster workspace).1
          = extract_elevation elevationRaster.sample rows) := by
  constructor
  · constructor
    · intro h1 heq
      rw [raster_extract_name_match reproject rows workspace heq] at h1
      simp at h1
    · intro hne
      rw [raster_extract_name_mismatch reproject rows workspace hne]
  · intro _ heq
    rw [raster_extract_name_match reproject rows workspace heq]

/-- Witness for C9: `srA ≠ wRaster.sr` yet the names agree, and sampling
happens directly on the original raster. -/
theorem claim_C9_witness :
    (raster_extract wReproject srA [wP2] wRaster ["plots.shp"]).1
      = extract_elevation wRaster.sample [wP2] :=
  (claim_C9 wReproject srA [wP2] wRaster ["plots.shp"]).2 (by decide) rfl

/-- Claim C7 (confirmed): for every plot point of the input collection,
`create_cardinals` creates exactly 8 cardinal records tagged with that
plot's FID in their `Id` attribute, and every cardinal's owning-plot
identifier is the FID of an existing plot row (an index below the plot
count). -/
theorem claim_C7 (cos45 plotRadius : ℚ) (pts : List PointRec) :
    (∀ i, i < pts.length →
      ((create_cardinals cos45 plotRadius pts).filter
          (fun q => q.ownerId == i)).length = 8)
    ∧ ∀ q ∈ create_cardinals cos45 plotRadius pts, q.ownerId < pts.length := by
  constructor
  · intro i hi
    exact create_cardinals_go_filter_length cos45 plotRadius pts 0 i
      (Nat.zero_le i) (by omega)
  · intro q hq
    have := create_cardinals_go_owner_bounds cos45 plotRadius pts 0 q hq
    omega

/-- Witness for C7: a single plot at `(0, 0)` with radius 2 yields exactly 8
cardinals owned by plot 0. -/
theorem claim_C7_witness :
    ((create_cardinals 1 2 [wP0]).filter (fun q => q.ownerId == 0)).length = 8
    ∧ ∀ q ∈ create_cardinals 1 2 [wP0], q.ownerId < [wP0].length :=
  ⟨(claim_C7 1 2 [wP0]).1 0 (by decide), (claim_C7 1 2 [wP0]).2⟩

/-- Claim C10 (confirmed): no stage modifies a row's coordinates or
identifier; `extract_elevation` changes at most the `RasElev` attribute,
`calculate_zhat` (when it returns) changes at most the `ZHat` attribute of
the plot rows — the cardinal rows are a read-only argument in the
embedding — and `calculate_tsi` changes at most the `TSI` attribute.
Row count and order are preserved (the mapped tuples include every other
attribute). -/
theorem claim_C10 (sample : ℚ → ℚ → Option ℚ) (rows pts cards : List PointRec)
    (r : ℚ) :
    (extract_elevation sample rows).map fieldsExceptElev = rows.map fieldsExceptElev
    ∧ (∀ out, calculate_zhat pts cards = .ok out →
        out.map fieldsExceptZhat = pts.map fieldsExceptZhat)
    ∧ (calculate_tsi r pts).map fieldsExceptTsi = pts.map fieldsExceptTsi :=
  ⟨extract_elevation_frame sample rows,
   fun _ h => calculate_zhat_ok_frame h,
   calculate_tsi_frame r pts⟩

/-- Witness for C10: the aggregation stage on the concrete fixture writes
only z-hat — every other attribute of the plot row survives. -/
theorem claim_C10_witness :
    ([{ cPlot with zhat := some 0 }].map fieldsExceptZhat
      = [cPlot].map fieldsExceptZhat) :=
  (claim_C10 wSample [] [cPlot] [cCard1, cCard2] 1).2.1
    [{ cPlot with zhat := some 0 }]
    (by
      simp [calculate_zhat, calculate_zhat_go, zhatValue, uniqueOwnerIds,
        allSome, setZhat, cPlot, cCard1, cCard2]
      norm_num)

/-- Counterexample to C1 as stated: plot 0 has one cardinal with a valid
elevation (12) and one whose sampling failed.  The claim requires z-hat to
be the mean over the valid cardinal only, `(12 − 10) / 1 = 2`; instead the
aggregation loop raises an uncaught `TypeError` (`None` enters the
subtraction on line 145) and no z-hat is produced at all. -/
theorem claim_C1_counterexample :
    cCardBad.elev = none ∧
    calculate_zhat [cPlot] [cCard1, cCardBad] = .error "TypeError" := by
  refine ⟨rfl, ?_⟩
  simp [calculate_zhat, calculate_zhat_go, zhatValue, uniqueOwnerIds,
    allSome, setZhat, cPlot, cCard1, cCardBad]

/-- Claim C1 (corrected): when `calculate_zhat` returns, each plot whose
cardinal group (keyed by the `Id` attribute, identifier-keyed) is nonempty
and carries only defined elevations — and whose own elevation is defined —
receives z-hat equal to the arithmetic mean of (cardinal elevation − plot
elevation) over that group, with the denominator the number of cardinals in
the group, never a hardcoded 8.  Contrary to the claim as stated, cardinals
without a valid elevation are not skipped: any undefined elevation in a
group makes the stage raise an uncaught exception instead of averaging the
valid subset (see the counterexample). -/
theorem claim_C1 (pts cards out : List PointRec) (i : ℕ) (pe : ℚ)
    (hok : calculate_zhat pts cards = .ok out)
    (hpe : (pts.map (fun p => p.elev)).get? i = some (some pe))
    (hne : cards.filter (fun q => q.ownerId == i) ≠ [])
    (hall : ∀ q ∈ cards.filter (fun q => q.ownerId == i), ∃ v, q.elev = some v) :
    out.get? i = (pts.get? i).map (fun p =>
      { p with zhat := some ((((cards.filter (fun q => q.ownerId == i)).filterMap
          (fun q => q.elev)).map (fun v => v - pe)).sum /
            ((cards.filter (fun q => q.ownerId == i)).length : ℚ)) }) := by
  have hv := zhatValue_ok_of_valid cards (pts.map (fun p => p.elev)) i pe hne hpe hall
  rw [calculate_zhat_eq] at hok
  cases hw : zhatWritesGo cards (pts.map (fun p => p.elev)) (uniqueOwnerIds cards) with
  | error e => rw [hw] at hok; exact absurd hok (by simp)
  | ok ws =>
      rw [hw] at hok
      injection hok with hok
      have hfst : ws.map Prod.fst = uniqueOwnerIds cards :=
        zhatWritesGo_ok_fst cards (pts.map (fun p => p.elev)) (uniqueOwnerIds cards) ws hw
      have hnd : (ws.map Prod.fst).Nodup := by
        rw [hfst]; exact List.nodup_dedup _
      have hiU : i ∈ uniqueOwnerIds cards := by
        rw [uniqueOwnerIds, List.mem_dedup]
        cases hg : cards.filter (fun q => q.ownerId == i) with
        | nil => exact absurd hg hne
        | cons q qs =>
            have hq : q ∈ cards.filter (fun q => q.ownerId == i) :=
              hg ▸ List.mem_cons_self q qs
            have := List.mem_filter.mp hq
            exact List.mem_map.mpr ⟨q, this.1, beq_iff_eq.mp this.2⟩
      obtain ⟨iz, hiz, hfsti⟩ := List.mem_map.mp (hfst ▸ hiU :
        i ∈ ws.map Prod.fst)
      have hizv : zhatValue cards (pts.map (fun p => p.elev)) iz.1 = .ok iz.2 :=
        zhatWritesGo_ok_mem cards (pts.map (fun p => p.elev))
          (uniqueOwnerIds cards) ws hw iz hiz
      rw [hfsti, hv] at hizv
      injection hizv with hizv
      have hmem : (i, (((cards.filter (fun q => q.ownerId == i)).filterMap
              (fun q => q.elev)).map (fun v => v - pe)).sum /
            ((cards.filter (fun q => q.ownerId == i)).length : ℚ)) ∈ ws := by
        rw [hizv, ← hfsti, Prod.mk.eta]
        exact hiz
      rw [← hok]
      exact applyWrites_get?_mem ws pts i _ hnd hmem

/-- Witness for C1: plot 0 with two valid cardinals (12 and 8 against plot
elevation 10) receives z-hat `((12−10) + (8−10)) / 2`. -/
theorem claim_C1_witness :
    [{ cPlot with zhat := some 0 }].get? 0 = ([cPlot].get? 0).map (fun p =>
      { p with zhat := some (((([cCard1, cCard2].filter (fun q => q.ownerId == 0)).filterMap
          (fun q => q.elev)).map (fun v => v - 10)).sum /
            (([cCard1, cCard2].filter (fun q => q.ownerId == 0)).length : ℚ)) }) :=
  claim_C1 [cPlot] [cCard1, cCard2] [{ cPlot with zhat := some 0 }] 0 10
    (by
      simp [calculate_zhat, calculate_zhat_go, zhatValue, uniqueOwnerIds,
        allSome, setZhat, cPlot, cCard1, cCard2]
      norm_num)
    (by simp [cPlot])
    (by simp [cCard1, cCard2])
    (by
      intro q hq
      simp [cCard1, cCard2] at hq
      rcases hq with h | h <;> subst h
      · exact ⟨12, rfl⟩
      · exact ⟨8, rfl⟩)

/-- Counterexample to C4 as stated: plot 0's only cardinal has no valid
elevation.  The claim says z-hat stays undefined and the condition is
reported, not fatal; instead `calculate_zhat` raises an uncaught
`TypeError`, which in a stand-alone run aborts the whole pipeline. -/
theorem claim_C4_counterexample :
    (∀ q ∈ [cCardBad], q.elev = none) ∧
    calculate_zhat [cPlot] [cCardBad] = .error "TypeError" := by
  constructor
  · intro q hq
    rw [List.mem_singleton] at hq
    subst hq
    rfl
  · simp [calculate_zhat, calculate_zhat_go, zhatValue, uniqueOwnerIds,
      allSome, setZhat, cPlot, cCardBad]

/-- Claim C4 (corrected): a plot with *no* cardinal records keeps an
undefined z-hat and an undefined TSI while the stage completes for other
plots (first conjunct); but a plot whose cardinal records all lack a valid
elevation is fatal: `calculate_zhat` raises an uncaught exception instead of
reporting and continuing (second conjunct), and in the TSI pass an
undefined z-hat ends the update loop, so the condition also costs every
later plot its TSI (see C5). -/
theorem claim_C4 (r : ℚ) (pts cards out : List PointRec) (i : ℕ) (p : PointRec) :
    ((∀ q ∈ cards, q.ownerId ≠ i) →
      calculate_zhat pts cards = .ok out →
      pts.get? i = some p → p.zhat = none →
      out.get? i = some p ∧ (calculate_tsi r out).get? i = some p)
    ∧ ((∃ q ∈ cards, q.ownerId = i) →
        (∀ q ∈ cards, q.ownerId = i → q.elev = none) →
        ∃ e, calculate_zhat pts cards = .error e) := by
  constructor
  · intro hnone hok hp hz
    rw [calculate_zhat_eq] at hok
    cases hw : zhatWritesGo cards (pts.map (fun q => q.elev)) (uniqueOwnerIds cards) with
    | error e => rw [hw] at hok; exact absurd hok (by simp)
    | ok ws =>
        rw [hw] at hok
        injection hok with hok
        have hfst : ws.map Prod.fst = uniqueOwnerIds cards :=
          zhatWritesGo_ok_fst cards (pts.map (fun q => q.elev)) (uniqueOwnerIds cards) ws hw
        have hnotin : i ∉ ws.map Prod.fst := by
          rw [hfst, uniqueOwnerIds, List.mem_dedup]
          intro hmem
          obtain ⟨q, hq, hqi⟩ := List.mem_map.mp hmem
          exact hnone q hq hqi
        have hout : out.get? i = some p := by
          rw [← hok, applyWrites_get?_not_mem ws pts i hnotin]
          exact hp
        exact ⟨hout, calculate_tsi_get?_of_zhat_none r out i p hout hz⟩
  · intro hex hallnone
    obtain ⟨q, hq, hqi⟩ := hex
    have hne : cards.filter (fun q => q.ownerId == i) ≠ [] := by
      intro hnil
      have : q ∈ cards.filter (fun q => q.ownerId == i) :=
        List.mem_filter.mpr ⟨hq, beq_iff_eq.mpr hqi⟩
      rw [hnil] at this
      exact List.not_mem_nil q this
    have hallf : ∀ q ∈ cards.filter (fun q => q.ownerId == i), q.elev = none := by
      intro q' hq'
      have := List.mem_filter.mp hq'
      exact hallnone q' this.1 (beq_iff_eq.mp this.2)
    obtain ⟨e, he⟩ := zhatValue_error_of_all_none cards
      (pts.map (fun q => q.elev)) i hne hallf
    have hiU : i ∈ uniqueOwnerIds cards := by
      rw [uniqueOwnerIds, List.mem_dedup]
      exact List.mem_map.mpr ⟨q, hq, hqi⟩
    obtain ⟨e', he'⟩ := zhatWritesGo_error_of_mem cards
      (pts.map (fun q => q.elev)) (uniqueOwnerIds cards) hiU he
    refine ⟨e', ?_⟩
    rw [calculate_zhat_eq, he']

/-- Witness for C4: plot 0 has no cardinals (the only cardinal belongs to
plot 1); aggregation succeeds for plot 1, plot 0 keeps z-hat `none`, and the
TSI pass leaves row 0 untouched. -/
theorem claim_C4_witness :
    [fP0, { cPlot with zhat := some 2 }].get? 0 = some fP0
    ∧ (calculate_tsi 10 [fP0, { cPlot with zhat := some 2 }]).get? 0 = some fP0 :=
  (claim_C4 10 [fP0, cPlot] [gCard] [fP0, { cPlot with zhat := some 2 }] 0 fP0).1
    (by decide)
    (by
      simp [calculate_zhat, calculate_zhat_go, zhatValue, uniqueOwnerIds,
        allSome, setZhat, fP0, cPlot, gCard]
      norm_num)
    rfl
    rfl

/-- Claim C8 (confirmed): running the stand-alone pipeline a second time on
the state left by a successful first run reproduces that state exactly — in
particular the TSI values are identical.  The `RasElev`, `ZHat` and `TSI`
attributes are overwritten, not accumulated: the cardinal file is recreated
from the unchanged coordinates, the same elevations are sampled, the same
z-hat writes are re-applied to rows that already hold those values, and the
TSI pass is idempotent. -/
theorem claim_C8 (reproject : RasterLayer → SpatialReference → RasterLayer)
    (cos45 inputRadius : ℚ) (plotSR : SpatialReference)
    (inputRaster : RasterLayer) (pts0 p1 : List PointRec)
    (hrun : run_pipeline reproject cos45 inputRadius plotSR inputRaster pts0 = .ok p1) :
    run_pipeline reproject cos45 inputRadius plotSR inputRaster p1 = .ok p1 := by
  simp only [run_pipeline, raster_extract_rows] at hrun ⊢
  set E := (if plotSR.name = inputRaster.sr.name then inputRaster.sample
    else (reproject inputRaster plotSR).sample) with hE
  set pts1 := extract_elevation E pts0 with hpts1
  set cards1 := extract_elevation E (create_cardinals cos45 inputRadius pts0) with hcards1
  cases hz : calculate_zhat pts1 cards1 with
  | error e =>
      simp only [hz] at hrun
      exact absurd hrun (by simp)
  | ok pts2 =>
      simp only [hz] at hrun
      injection hrun with hrun
      have hp1 : p1 = calculate_tsi inputRadius pts2 := hrun.symm
      have hF1 : p1.map fieldsExceptTsi = pts2.map fieldsExceptTsi := by
        rw [hp1]
        exact calculate_tsi_frame inputRadius pts2
      have hF2 : pts2.map fieldsExceptZhat = pts1.map fieldsExceptZhat :=
        calculate_zhat_ok_frame hz
      have hF3 : pts1.map fieldsExceptElev = pts0.map fieldsExceptElev :=
        extract_elevation_frame E pts0
      have hc1 : p1.map coordsOf = pts2.map coordsOf :=
        map_comp_eq fieldsExceptTsi (fun t => (t.1, t.2.1)) hF1
      have hc2 : pts2.map coordsOf = pts1.map coordsOf :=
        map_comp_eq fieldsExceptZhat (fun t => (t.1, t.2.1)) hF2
      have hc3 : pts1.map coordsOf = pts0.map coordsOf :=
        map_comp_eq fieldsExceptElev (fun t => (t.1, t.2.1)) hF3
      have hcoords : p1.map coordsOf = pts0.map coordsOf := by
        rw [hc1, hc2, hc3]
      have hcards : create_cardinals cos45 inputRadius p1
          = create_cardinals cos45 inputRadius pts0 :=
        create_cardinals_coords_congr cos45 inputRadius hcoords
      have hce1 : p1.map ceOf = pts2.map ceOf :=
        map_comp_eq fieldsExceptTsi (fun t => (t.1, t.2.1, t.2.2.2.1)) hF1
      have hce2 : pts2.map ceOf = pts1.map ceOf :=
        map_comp_eq fieldsExceptZhat (fun t => (t.1, t.2.1, t.2.2.2.1)) hF2
      have hce : p1.map ceOf = pts1.map ceOf := by rw [hce1, hce2]
      have hstable : extract_elevation E p1 = p1 :=
        extract_elevation_stable E pts0 p1 (by rw [← hpts1]; exact hce)
      have helev : p1.map (fun p => p.elev) = pts1.map (fun p => p.elev) :=
        map_comp_eq ceOf (fun t => t.2.2) hce
      rw [calculate_zhat_eq] at hz
      cases hw : zhatWritesGo cards1 (pts1.map (fun p => p.elev))
          (uniqueOwnerIds cards1) with
      | error e =>
          simp only [hw] at hz
          exact absurd hz (by simp)
      | ok ws =>
          simp only [hw] at hz
          injection hz with hz
          have hfst : ws.map Prod.fst = uniqueOwnerIds cards1 :=
            zhatWritesGo_ok_fst _ _ _ ws hw
          have hnd : (ws.map Prod.fst).Nodup := by
            rw [hfst]
            exact List.nodup_dedup _
          have happ : applyWrites ws p1 = p1 := by
            apply applyWrites_eq_self
            intro iz hiz p hp
            have hlt : iz.1 < (pts1.map (fun p => p.elev)).length :=
              zhatValue_ok_lt (zhatWritesGo_ok_mem _ _ _ ws hw iz hiz)
            rw [List.length_map] at hlt
            obtain ⟨q, hq⟩ : ∃ q, pts1.get? iz.1 = some q := by
              cases hgq : pts1.get? iz.1 with
              | none =>
                  have := List.get?_eq_none.mp hgq
                  omega
              | some q => exact ⟨q, rfl⟩
            have hmemiz : (iz.1, iz.2) ∈ ws := by
              rw [Prod.mk.eta]
              exact hiz
            have hpts2 : pts2.get? iz.1
                = (pts1.get? iz.1).map (fun p => { p with zhat := some iz.2 }) := by
              rw [← hz]
              exact applyWrites_get?_mem ws pts1 iz.1 iz.2 hnd hmemiz
            have hzh : p1.map (fun p => p.zhat) = pts2.map (fun p => p.zhat) :=
              map_comp_eq fieldsExceptTsi (fun t => t.2.2.2.2) hF1
            have hg : (p1.get? iz.1).map (fun p => p.zhat)
                = (pts2.get? iz.1).map (fun p => p.zhat) := by
              rw [← List.get?_map, ← List.get?_map, hzh]
            rw [hp, hpts2, hq] at hg
            simp only [Option.map_some', Option.some.injEq] at hg
            exact hg
          have hz2 : calculate_zhat p1 cards1 = .ok p1 := by
            rw [calculate_zhat_eq, helev]
            simp only [hw]
            rw [happ]
          rw [hstable, hcards, ← hcards1]
          simp only [hz2]
          rw [hp1, calculate_tsi_idem]

/-- Witness for C8: one plot at `(0,0)`, radius 2, constant-5 raster with a
matching reference name.  The first run yields elevation 5, z-hat 0, TSI 0;
a second run on that state reproduces it exactly. -/
theorem claim_C8_witness :
    run_pipeline wReproject 1 2 srA wRaster5 [wFixed] = .ok [wFixed] :=
  claim_C8 wReproject 1 2 srA wRaster5 [wP0] [wFixed] (by
    simp [run_pipeline, raster_extract, create_cardinals, create_cardinals_go,
      cardinalRows, cardinalOffsets, extract_elevation, calculate_zhat,
      calculate_zhat_go, zhatValue, uniqueOwnerIds, allSome, setZhat,
      calculate_tsi, wReproject, srA, srB, wRaster5, wP0, wFixed])
